import Mathlib

/-!
Verification development for the ESP32-OS kernel core
(`src/kernel/memory.cpp`, `src/src/kernel/scheduler.cpp`, `src/kernel/kernel.cpp`).

Modelling conventions:
* C pointers are natural numbers, `0` standing for `nullptr`.
* C strings (task names, tags) are `List Char`; a possibly-NULL string
  argument is an `Option (List Char)`.
* The external collaborators (FreeRTOS task creation, `malloc`, mutex
  acquisition, `millis`) are oracles passed as explicit arguments:
  `mallocRes : Nat` is the pointer returned by `malloc` (`0` = failure),
  `spawnRes : Option Nat` the handle produced by `xTaskCreate`,
  `lockOk : Bool` whether `xSemaphoreTake(..., 1000)` succeeded before the
  timeout, `now : Nat` the current `millis()` value.
* Each operation returns its result state together with the returned value
  and instrumentation flags recording which external calls were made
  (`mallocCalled`, `spawnCalled`, dealloc flags, and for the kernel facade
  the list of lock-acquisition attempts with their timeouts).
* The alignment computation `(size + MEMORY_ALIGNMENT - 1) & ~(MEMORY_ALIGNMENT - 1)`
  operates on a 32-bit `size_t`; it is modelled with an explicit `% 2 ^ 32`
  and the 32-bit complement mask `0xFFFFFFFC`, because the wrap-around is
  reachable for caller-supplied sizes.  The statistics counters
  (`totalAllocated`, `peakAllocated`, `allocationCount`, `freeCount`) are
  32-bit in the source but are modelled as unbounded naturals: live blocks
  are disjoint regions of a 32-bit address space, so the tracked totals can
  never reach `2 ^ 32` in any execution of the target and the counter
  arithmetic never overflows.
-/

namespace Esp32OS

/-- Configuration constants from `src/src/config/config.h`. -/
def MEMORY_ALIGNMENT : Nat := 4

/-- Fixed capacity of the allocation-record table (`config.h`). -/
def MAX_MEMORY_BLOCKS : Nat := 64

/-- Fixed capacity of the task table (`config.h`). -/
def MAX_TASKS : Nat := 16

/-- First index of a list element satisfying `p`; this is the shape of every
linear table scan in the source (`findFreeBlock`, `findBlockByPtr`,
`findTaskByName`, `findFreeTaskSlot`). -/
def scanIdx (p : α → Bool) : List α → Option Nat
  | [] => none
  | a :: as => if p a then some 0 else (scanIdx p as).map (· + 1)

/-- Sum of `f` over a list; used for the live-size total and for counting
active records with a given name. -/
def sumMap (f : α → Nat) (l : List α) : Nat := (l.map f).sum

/-- Alignment step of `MemoryManager::allocate` (memory.cpp line 61):
`size = (size + MEMORY_ALIGNMENT - 1) & ~(MEMORY_ALIGNMENT - 1)` on a 32-bit
`size_t`.  The bitwise complement of `3` in 32 bits is `0xFFFFFFFC`, and the
addition wraps modulo `2 ^ 32`. -/
def align32 (size : Nat) : Nat :=
  ((size + (MEMORY_ALIGNMENT - 1)) % 2 ^ 32) &&& 0xFFFFFFFC

/-- One slot of the allocation-record table (`MemoryBlock` in memory.h). -/
structure MemoryBlock where
  ptr : Nat
  size : Nat
  allocated : Bool
  timestamp : Nat
  tag : List Char
  deriving DecidableEq, Repr

/-- Zeroed allocation record, as produced by the `MemoryManager` constructor
and by the clearing code at the end of `MemoryManager::free`. -/
def clearedBlock : MemoryBlock :=
  { ptr := 0, size := 0, allocated := false, timestamp := 0, tag := [] }

/-- State of the `MemoryManager` class: the record table and the four
statistics counters. -/
structure MemoryManager where
  blocks : List MemoryBlock
  totalAllocated : Nat
  peakAllocated : Nat
  allocationCount : Nat
  freeCount : Nat
  deriving DecidableEq, Repr

/-- State after the `MemoryManager` constructor plus a successful `init()`. -/
def mmInit : MemoryManager :=
  { blocks := List.replicate MAX_MEMORY_BLOCKS clearedBlock,
    totalAllocated := 0, peakAllocated := 0,
    allocationCount := 0, freeCount := 0 }

/-- Linear scan for a free record slot (`MemoryManager::findFreeBlock`). -/
@[reducible] def findFreeBlock (l : List MemoryBlock) : Option Nat :=
  scanIdx (fun b => !b.allocated) l

/-- Linear scan for the live record holding `ptr`
(`MemoryManager::findBlockByPtr`). -/
@[reducible] def findBlockByPtr (ptr : Nat) (l : List MemoryBlock) : Option Nat :=
  scanIdx (fun b => b.allocated && b.ptr == ptr) l

/-- Default value of the `tag` argument of `MemoryManager::allocate`
(memory.h line 43) and the fallback for a NULL `tag` (memory.cpp line 90). -/
def unknownTag : List Char := "unknown".toList

/-- Result of `MemoryManager::allocate`: new state, returned pointer
(`0` = `nullptr`), and whether `malloc` was invoked. -/
structure AllocOutcome where
  st : MemoryManager
  ret : Nat
  mallocCalled : Bool
  deriving DecidableEq, Repr

/-- Shallow embedding of `MemoryManager::allocate` (memory.cpp lines 55-112).
`mallocRes` is the pointer produced by the external `malloc` call (`0` for
failure); `lockOk` tells whether `xSemaphoreTake(memoryMutex, 1000)`
succeeded.  The mutex itself is assumed to have been created by `init`. -/
def MemoryManager.allocate (m : MemoryManager) (size : Nat)
    (tag : Option (List Char)) (now : Nat) (mallocRes : Nat) (lockOk : Bool) :
    AllocOutcome :=
  if size = 0 then ⟨m, 0, false⟩
  else
    let aligned := align32 size
    if !lockOk then ⟨m, 0, false⟩
    else
      match findFreeBlock m.blocks with
      | none => ⟨m, 0, false⟩
      | some slot =>
        if mallocRes = 0 then ⟨m, 0, true⟩
        else
          ⟨{ blocks := m.blocks.set slot
               { ptr := mallocRes, size := aligned, allocated := true,
                 timestamp := now, tag := (tag.getD unknownTag).take 15 },
             totalAllocated := m.totalAllocated + aligned,
             peakAllocated :=
               if m.totalAllocated + aligned > m.peakAllocated then
                 m.totalAllocated + aligned
               else m.peakAllocated,
             allocationCount := m.allocationCount + 1,
             freeCount := m.freeCount }, mallocRes, true⟩

/-- Result of `MemoryManager::free`: new state and whether the external
`::free` was invoked. -/
structure FreeOutcome where
  st : MemoryManager
  deallocCalled : Bool
  deriving DecidableEq, Repr

/-- Shallow embedding of `MemoryManager::free` (memory.cpp lines 114-156). -/
def MemoryManager.free (m : MemoryManager) (ptr : Nat) (lockOk : Bool) :
    FreeOutcome :=
  if ptr = 0 then ⟨m, false⟩
  else if !lockOk then ⟨m, false⟩
  else
    match findBlockByPtr ptr m.blocks with
    | none => ⟨m, false⟩
    | some slot =>
      ⟨{ blocks := m.blocks.set slot clearedBlock,
         totalAllocated :=
           m.totalAllocated - (m.blocks.getD slot clearedBlock).size,
         peakAllocated := m.peakAllocated,
         allocationCount := m.allocationCount,
         freeCount := m.freeCount + 1 }, true⟩

/-- Result of `MemoryManager::reallocate`. -/
structure ReallocOutcome where
  st : MemoryManager
  ret : Nat
  mallocCalled : Bool
  deallocCalled : Bool
  deriving DecidableEq, Repr

/-- Shallow embedding of `MemoryManager::reallocate` (memory.cpp lines
158-198).  `lockOk1` is the acquisition for the metadata lookup; the nested
`allocate` and `free` calls take the lock again with their own outcomes
(`allocLockOk`, `freeLockOk`).  The `memcpy` of block contents is invisible
at this level of abstraction (the model tracks records, not heap bytes). -/
def MemoryManager.reallocate (m : MemoryManager) (ptr newSize : Nat)
    (now : Nat) (mallocRes : Nat) (lockOk1 allocLockOk freeLockOk : Bool) :
    ReallocOutcome :=
  if newSize = 0 then
    let f := m.free ptr freeLockOk
    ⟨f.st, 0, false, f.deallocCalled⟩
  else if ptr = 0 then
    let a := m.allocate newSize (some unknownTag) now mallocRes allocLockOk
    ⟨a.st, a.ret, a.mallocCalled, false⟩
  else if !lockOk1 then ⟨m, 0, false, false⟩
  else
    match findBlockByPtr ptr m.blocks with
    | none => ⟨m, 0, false, false⟩
    | some slot =>
      let tg := (m.blocks.getD slot clearedBlock).tag.take 16
      let a := m.allocate newSize (some tg) now mallocRes allocLockOk
      if a.ret = 0 then ⟨a.st, 0, a.mallocCalled, false⟩
      else
        let f := a.st.free ptr freeLockOk
        ⟨f.st, a.ret, a.mallocCalled, f.deallocCalled⟩

/-- Size of a record as it enters `totalAllocated`: live records contribute
their `size` field, free slots contribute nothing. -/
def liveSize (b : MemoryBlock) : Nat := if b.allocated then b.size else 0

/-- Sum of `size` over the currently-live allocation records. -/
def liveSum (l : List MemoryBlock) : Nat := sumMap liveSize l

/-- States of the memory manager reachable from `init` by any sequence of
`allocate` and `free` calls, with arbitrary outcomes of the external
collaborators (`malloc`, mutex acquisition, clock). -/
inductive MemReachable : MemoryManager → Prop
  | init : MemReachable mmInit
  | alloc (m : MemoryManager) (size : Nat) (tag : Option (List Char))
      (now mallocRes : Nat) (lockOk : Bool) : MemReachable m →
      MemReachable (m.allocate size tag now mallocRes lockOk).st
  | dealloc (m : MemoryManager) (ptr : Nat) (lockOk : Bool) : MemReachable m →
      MemReachable (m.free ptr lockOk).st

/-- Bookkeeping invariant of the memory manager: `totalAllocated` is the sum
of `size` over live records and never exceeds `peakAllocated`, and live
records never hold a NULL pointer. -/
def memInv (m : MemoryManager) : Prop :=
  m.totalAllocated = liveSum m.blocks ∧
  m.totalAllocated ≤ m.peakAllocated ∧
  ∀ b ∈ m.blocks, b.allocated = true → b.ptr ≠ 0

/-- FreeRTOS task states (`eTaskState`), in declaration order; the numeric
value of `eRunning` is 0. -/
inductive eTaskState where
  | eRunning
  | eReady
  | eBlocked
  | eSuspended
  | eDeleted
  | eInvalid
  deriving DecidableEq, Repr

/-- One slot of the task table (`TaskInfo` in scheduler.h).  The name buffer
is `char name[32]`, so a stored name holds at most 31 characters. -/
structure TaskInfo where
  name : List Char
  handle : Nat
  stackSize : Nat
  priority : Nat
  state : eTaskState
  stackHighWaterMark : Nat
  active : Bool
  deriving DecidableEq, Repr

/-- Slot contents after the `Scheduler` constructor, which clears `active`,
`handle` and `name`.  The C++ constructor leaves the remaining fields
uninitialized; they are modelled as zero (`eRunning` is the zero state) and
no claim reads them before `createTask` assigns them. -/
def initTask : TaskInfo :=
  { name := [], handle := 0, stackSize := 0, priority := 0,
    state := .eRunning, stackHighWaterMark := 0, active := false }

/-- State of the `Scheduler` class: the task table and the active count. -/
structure Scheduler where
  tasks : List TaskInfo
  taskCount : Nat
  deriving DecidableEq, Repr

/-- Scheduler state after the constructor plus a successful `init()`. -/
def schedInit : Scheduler :=
  { tasks := List.replicate MAX_TASKS initTask, taskCount := 0 }

/-- Linear scan for the active slot whose stored name compares equal
(`strcmp`) to the requested name (`Scheduler::findTaskByName`). -/
@[reducible] def findTaskByName (name : List Char) (l : List TaskInfo) : Option Nat :=
  scanIdx (fun t => t.active && t.name == name) l

/-- Linear scan for an inactive slot (`Scheduler::findFreeTaskSlot`). -/
@[reducible] def findFreeTaskSlot (l : List TaskInfo) : Option Nat :=
  scanIdx (fun t => !t.active) l

/-- Result of `Scheduler::createTask`: new state, returned `bool`, and
whether `xTaskCreate` was invoked. -/
structure CreateOutcome where
  st : Scheduler
  ret : Bool
  spawnCalled : Bool
  deriving DecidableEq, Repr

/-- Shallow embedding of `Scheduler::createTask` (scheduler.cpp lines
50-111).  `name = none` models a NULL name pointer, `taskFunction = 0` a
NULL function pointer; `spawnRes` is the handle stored by `xTaskCreate`
(`none` = `pdFAIL`).  On success the slot keeps its old
`stackHighWaterMark`, because the source never writes that field here, and
the stored name is truncated to 31 characters by
`strncpy(tasks[slot].name, name, sizeof(tasks[slot].name) - 1)`. -/
def Scheduler.createTask (s : Scheduler) (name : Option (List Char))
    (taskFunction : Nat) (stackSize : Nat) (priority : Nat) (lockOk : Bool)
    (spawnRes : Option Nat) : CreateOutcome :=
  match name with
  | none => ⟨s, false, false⟩
  | some n =>
    if taskFunction = 0 then ⟨s, false, false⟩
    else if !lockOk then ⟨s, false, false⟩
    else if (findTaskByName n s.tasks).isSome then ⟨s, false, false⟩
    else
      match findFreeTaskSlot s.tasks with
      | none => ⟨s, false, false⟩
      | some slot =>
        match spawnRes with
        | none => ⟨s, false, true⟩
        | some handle =>
          ⟨{ tasks := s.tasks.set slot
               { (s.tasks.getD slot initTask) with
                 name := n.take 31, handle := handle,
                 stackSize := stackSize, priority := priority,
                 state := .eReady, active := true },
             taskCount := s.taskCount + 1 }, true, true⟩

/-- Shallow embedding of `Scheduler::deleteTask` (scheduler.cpp lines
113-147).  Clearing touches only `active`, `handle` and the `name` buffer;
`stackSize`, `priority`, `state` and `stackHighWaterMark` keep their stale
values. -/
def Scheduler.deleteTask (s : Scheduler) (name : Option (List Char))
    (lockOk : Bool) : Scheduler × Bool :=
  match name with
  | none => (s, false)
  | some n =>
    if !lockOk then (s, false)
    else
      match findTaskByName n s.tasks with
      | none => (s, false)
      | some slot =>
        ({ tasks := s.tasks.set slot
             { (s.tasks.getD slot initTask) with
               active := false, handle := 0, name := [] },
           taskCount := s.taskCount - 1 }, true)

/-- Shallow embedding of `Scheduler::suspendTask` (scheduler.cpp lines
149-168). -/
def Scheduler.suspendTask (s : Scheduler) (name : Option (List Char))
    (lockOk : Bool) : Scheduler × Bool :=
  match name with
  | none => (s, false)
  | some n =>
    if !lockOk then (s, false)
    else
      match findTaskByName n s.tasks with
      | none => (s, false)
      | some slot =>
        if (s.tasks.getD slot initTask).handle = 0 then (s, false)
        else
          ({ tasks := s.tasks.set slot
               { (s.tasks.getD slot initTask) with state := .eSuspended },
             taskCount := s.taskCount }, true)

/-- Shallow embedding of `Scheduler::resumeTask` (scheduler.cpp lines
170-189). -/
def Scheduler.resumeTask (s : Scheduler) (name : Option (List Char))
    (lockOk : Bool) : Scheduler × Bool :=
  match name with
  | none => (s, false)
  | some n =>
    if !lockOk then (s, false)
    else
      match findTaskByName n s.tasks with
      | none => (s, false)
      | some slot =>
        if (s.tasks.getD slot initTask).handle = 0 then (s, false)
        else
          ({ tasks := s.tasks.set slot
               { (s.tasks.getD slot initTask) with state := .eReady },
             taskCount := s.taskCount }, true)

/-- Scheduler states reachable from `init` by any sequence of task calls
with arbitrary collaborator outcomes. -/
inductive SchedReachable : Scheduler → Prop
  | init : SchedReachable schedInit
  | create (s : Scheduler) (name : Option (List Char))
      (taskFunction stackSize priority : Nat) (lockOk : Bool)
      (spawnRes : Option Nat) : SchedReachable s →
      SchedReachable
        (s.createTask name taskFunction stackSize priority lockOk spawnRes).st
  | del (s : Scheduler) (name : Option (List Char)) (lockOk : Bool) :
      SchedReachable s → SchedReachable (s.deleteTask name lockOk).1
  | susp (s : Scheduler) (name : Option (List Char)) (lockOk : Bool) :
      SchedReachable s → SchedReachable (s.suspendTask name lockOk).1
  | res (s : Scheduler) (name : Option (List Char)) (lockOk : Bool) :
      SchedReachable s → SchedReachable (s.resumeTask name lockOk).1

/-- Scheduler states reachable when every `createTask` call uses a name of
at most 31 characters, so that the stored copy is never truncated. -/
inductive SchedReachableShort : Scheduler → Prop
  | init : SchedReachableShort schedInit
  | create (s : Scheduler) (n : List Char)
      (taskFunction stackSize priority : Nat) (lockOk : Bool)
      (spawnRes : Option Nat) : SchedReachableShort s → n.length ≤ 31 →
      SchedReachableShort
        (s.createTask (some n) taskFunction stackSize priority lockOk
          spawnRes).st
  | del (s : Scheduler) (name : Option (List Char)) (lockOk : Bool) :
      SchedReachableShort s → SchedReachableShort (s.deleteTask name lockOk).1
  | susp (s : Scheduler) (name : Option (List Char)) (lockOk : Bool) :
      SchedReachableShort s →
      SchedReachableShort (s.suspendTask name lockOk).1
  | res (s : Scheduler) (name : Option (List Char)) (lockOk : Bool) :
      SchedReachableShort s →
      SchedReachableShort (s.resumeTask name lockOk).1

/-- Number of active records carrying a given name. -/
def activeCount (n : List Char) (l : List TaskInfo) : Nat :=
  sumMap (fun t => if t.active = true ∧ t.name = n then 1 else 0) l

/-- State of the `Kernel` facade (kernel.h): the two owned registries plus
the fields the facade operations touch.  The statistics-only fields
(`bootTime`, `uptime`, `freeMem`, `minFreeMem`, `healthy`) play no role in
the claims about the facade operations and are omitted. -/
structure Kernel where
  scheduler : Scheduler
  memoryManager : MemoryManager
  initialized : Bool
  totalTasks : Nat
  deriving DecidableEq, Repr

/-- Kernel state after a successful `Kernel::init()`. -/
def kernelInit : Kernel :=
  { scheduler := schedInit, memoryManager := mmInit,
    initialized := true, totalTasks := 0 }

/-- Result of a facade task operation returning `bool`.  `facadeAttempts`
records the timeouts of the `takeMutex` calls made on the facade's
`systemMutex`. -/
structure KTaskOutcome where
  st : Kernel
  ret : Bool
  facadeAttempts : List Nat
  deriving DecidableEq, Repr

/-- Result of `Kernel::allocateMemory`. -/
structure KAllocOutcome where
  st : Kernel
  ret : Nat
  facadeAttempts : List Nat
  deriving DecidableEq, Repr

/-- Result of a facade operation returning `void`. -/
structure KVoidOutcome where
  st : Kernel
  facadeAttempts : List Nat
  deriving DecidableEq, Repr

/-- Shallow embedding of `Kernel::createTask` (kernel.cpp lines 83-99).
`tryLock t` is the outcome of `takeMutex(t)` on the facade mutex;
`schedLockOk` and `spawnRes` are the oracles of the nested
`Scheduler::createTask` call. -/
def Kernel.createTask (k : Kernel) (name : Option (List Char))
    (taskFunction stackSize priority : Nat) (tryLock : Nat → Bool)
    (schedLockOk : Bool) (spawnRes : Option Nat) : KTaskOutcome :=
  if !k.initialized then ⟨k, false, []⟩
  else if tryLock 1000 then
    let r := k.scheduler.createTask name taskFunction stackSize priority
      schedLockOk spawnRes
    ⟨{ k with
        scheduler := r.st,
        totalTasks := if r.ret then k.totalTasks + 1 else k.totalTasks },
      r.ret, [1000]⟩
  else ⟨k, false, [1000]⟩

/-- Shallow embedding of `Kernel::deleteTask` (kernel.cpp lines 101-116). -/
def Kernel.deleteTask (k : Kernel) (name : Option (List Char))
    (tryLock : Nat → Bool) (schedLockOk : Bool) : KTaskOutcome :=
  if !k.initialized then ⟨k, false, []⟩
  else if tryLock 1000 then
    let r := k.scheduler.deleteTask name schedLockOk
    ⟨{ k with
        scheduler := r.1,
        totalTasks := if r.2 then k.totalTasks - 1 else k.totalTasks },
      r.2, [1000]⟩
  else ⟨k, false, [1000]⟩

/-- Shallow embedding of `Kernel::suspendTask` (kernel.cpp lines 118-123);
the source returns `void`. -/
def Kernel.suspendTask (k : Kernel) (name : Option (List Char))
    (tryLock : Nat → Bool) (schedLockOk : Bool) : KVoidOutcome :=
  if !k.initialized then ⟨k, []⟩
  else if tryLock 1000 then
    ⟨{ k with scheduler := (k.scheduler.suspendTask name schedLockOk).1 },
      [1000]⟩
  else ⟨k, [1000]⟩

/-- Shallow embedding of `Kernel::resumeTask` (kernel.cpp lines 125-130);
the source returns `void`. -/
def Kernel.resumeTask (k : Kernel) (name : Option (List Char))
    (tryLock : Nat → Bool) (schedLockOk : Bool) : KVoidOutcome :=
  if !k.initialized then ⟨k, []⟩
  else if tryLock 1000 then
    ⟨{ k with scheduler := (k.scheduler.resumeTask name schedLockOk).1 },
      [1000]⟩
  else ⟨k, [1000]⟩

/-- Shallow embedding of `Kernel::allocateMemory` (kernel.cpp lines
132-138).  The source delegates directly to `memoryManager->allocate(size)`
(default tag `"unknown"`) and contains no `takeMutex` call, so
`facadeAttempts` is always empty; `memLockOk` is the oracle of the memory
manager's own internal mutex. -/
def Kernel.allocateMemory (k : Kernel) (size : Nat) (now : Nat)
    (mallocRes : Nat) (memLockOk : Bool) : KAllocOutcome :=
  if !k.initialized then ⟨k, 0, []⟩
  else
    let r := k.memoryManager.allocate size (some unknownTag) now mallocRes
      memLockOk
    ⟨{ k with memoryManager := r.st }, r.ret, []⟩

/-- Shallow embedding of `Kernel::freeMemory` (kernel.cpp lines 140-144);
no `takeMutex` call in the source. -/
def Kernel.freeMemory (k : Kernel) (ptr : Nat) (memLockOk : Bool) :
    KVoidOutcome :=
  if k.initialized && (ptr != 0) then
    ⟨{ k with memoryManager := (k.memoryManager.free ptr memLockOk).st }, []⟩
  else ⟨k, []⟩

/-- Fully-occupied task table used to exercise the capacity check: every
one of the 16 slots is active. -/
def schedFull : Scheduler :=
  { tasks := List.replicate MAX_TASKS
      { name := "t".toList, handle := 1, stackSize := 1024, priority := 1,
        state := .eReady, stackHighWaterMark := 0, active := true },
    taskCount := 16 }

/-- Fully-occupied allocation table used to exercise the capacity check:
every one of the 64 slots is live. -/
def mmFull : MemoryManager :=
  { blocks := List.replicate MAX_MEMORY_BLOCKS
      { ptr := 4, size := 4, allocated := true, timestamp := 0, tag := [] },
    totalAllocated := 256, peakAllocated := 256,
    allocationCount := 64, freeCount := 0 }

theorem scanIdx_nil (p : α → Bool) : scanIdx p [] = none := rfl

theorem scanIdx_none_iff (p : α → Bool) (l : List α) :
    scanIdx p l = none ↔ ∀ a ∈ l, p a = false := by
  induction l with
  | nil => simp [scanIdx]
  | cons a as ih =>
    by_cases h : p a = true
    · simp [scanIdx, h]
    · simp only [Bool.not_eq_true] at h
      simp [scanIdx, h, ih]

theorem scanIdx_some_lt {p : α → Bool} {l : List α} {i : Nat}
    (h : scanIdx p l = some i) : i < l.length := by
  induction l generalizing i with
  | nil => simp [scanIdx] at h
  | cons a as ih =>
    by_cases hp : p a = true
    · simp [scanIdx, hp] at h
      simp only [List.length_cons]
      omega
    · simp only [Bool.not_eq_true] at hp
      simp [scanIdx, hp, Option.map_eq_some'] at h
      obtain ⟨j, hj, rfl⟩ := h
      have := ih hj
      simp only [List.length_cons]
      omega

theorem scanIdx_getD {p : α → Bool} {l : List α} {i : Nat}
    (h : scanIdx p l = some i) (d : α) : p (l.getD i d) = true := by
  induction l generalizing i with
  | nil => simp [scanIdx] at h
  | cons a as ih =>
    by_cases hp : p a = true
    · simp [scanIdx, hp] at h
      subst h
      simpa using hp
    · simp only [Bool.not_eq_true] at hp
      simp [scanIdx, hp, Option.map_eq_some'] at h
      obtain ⟨j, hj, rfl⟩ := h
      simpa using ih hj

theorem scanIdx_set_of_none {p : α → Bool} {l : List α} {b : α}
    (h : scanIdx p l = none) (hb : p b = true) :
    ∀ i, i < l.length → scanIdx p (l.set i b) = some i := by
  induction l with
  | nil => intro i hi; simp at hi
  | cons a as ih =>
    intro i hi
    rw [scanIdx_none_iff] at h
    have ha : p a = false := h a (by simp)
    have htail : scanIdx p as = none := by
      rw [scanIdx_none_iff]
      intro x hx
      exact h x (by simp [hx])
    cases i with
    | zero => simp [List.set, scanIdx, hb]
    | succ j =>
      simp only [List.set, scanIdx, ha]
      simp only [Bool.false_eq_true, if_false]
      rw [ih htail j (by simpa using hi)]
      rfl

theorem scanIdx_set_none {p : α → Bool} {l : List α} {b : α} {i : Nat}
    (h : scanIdx p l = none) (hb : p b = false) :
    scanIdx p (l.set i b) = none := by
  rw [scanIdx_none_iff] at h ⊢
  intro x hx
  rcases List.mem_or_eq_of_mem_set hx with hmem | rfl
  · exact h x hmem
  · exact hb

theorem scanIdx_set_self {p : α → Bool} {l : List α} {b : α} {i : Nat}
    (h : scanIdx p l = some i) (hb : p b = true) :
    scanIdx p (l.set i b) = some i := by
  induction l generalizing i with
  | nil => simp [scanIdx] at h
  | cons a as ih =>
    by_cases hp : p a = true
    · simp [scanIdx, hp] at h
      subst h
      simp [List.set, scanIdx, hp, hb]
    · simp only [Bool.not_eq_true] at hp
      simp [scanIdx, hp, Option.map_eq_some'] at h
      obtain ⟨j, hj, rfl⟩ := h
      simp only [List.set, scanIdx, hp]
      simp only [Bool.false_eq_true, if_false]
      rw [ih hj]
      rfl

theorem sumMap_nil (f : α → Nat) : sumMap f [] = 0 := rfl

theorem sumMap_cons (f : α → Nat) (a : α) (l : List α) :
    sumMap f (a :: l) = f a + sumMap f l := by
  simp [sumMap]

theorem sumMap_set (f : α → Nat) (l : List α) (i : Nat) (b d : α)
    (h : i < l.length) :
    sumMap f (l.set i b) + f (l.getD i d) = sumMap f l + f b := by
  induction l generalizing i with
  | nil => simp at h
  | cons a as ih =>
    cases i with
    | zero => simp [sumMap_cons]; omega
    | succ j =>
      have hj : j < as.length := by simpa using h
      have := ih j hj
      simp only [List.set, sumMap_cons, List.getD_cons_succ]
      omega

theorem getD_le_sumMap (f : α → Nat) (l : List α) (i : Nat) (d : α)
    (h : i < l.length) : f (l.getD i d) ≤ sumMap f l := by
  induction l generalizing i with
  | nil => simp at h
  | cons a as ih =>
    cases i with
    | zero => simp [sumMap_cons]
    | succ j =>
      have hj : j < as.length := by simpa using h
      have := ih j hj
      simp only [List.getD_cons_succ, sumMap_cons]
      omega

theorem getD_set_self (l : List α) (i : Nat) (b d : α) (h : i < l.length) :
    (l.set i b).getD i d = b := by
  induction l generalizing i with
  | nil => simp at h
  | cons a as ih =>
    cases i with
    | zero => simp
    | succ j => simpa using ih j (by simpa using h)

/-- Clearing the low two bits of a 32-bit value rounds it down to a multiple
of four. -/
theorem land_mask (x : Nat) (hx : x < 2 ^ 32) :
    x &&& 0xFFFFFFFC = 4 * (x / 4) := by
  have hm : (0xFFFFFFFC : Nat) = (2 ^ 30 - 1) <<< 2 := by decide
  have h4 : 4 * (x / 4) = (x >>> 2) <<< 2 := by
    rw [Nat.shiftRight_eq_div_pow, Nat.shiftLeft_eq]
    norm_num
    omega
  rw [hm, h4]
  apply Nat.eq_of_testBit_eq
  intro i
  rw [Nat.testBit_land, Nat.testBit_shiftLeft, Nat.testBit_shiftLeft,
    Nat.testBit_shiftRight, Nat.testBit_two_pow_sub_one]
  by_cases h2 : 2 ≤ i
  · by_cases h30 : i - 2 < 30
    · simp [ge_iff_le, h2, h30, Nat.add_sub_cancel']
    · have hxi : x.testBit i = false := by
        apply Nat.testBit_lt_two_pow
        calc x < 2 ^ 32 := hx
        _ ≤ 2 ^ i := Nat.pow_le_pow_right (by omega) (by omega)
      simp [ge_iff_le, h2, h30, hxi]
  · simp [ge_iff_le, h2]

/-- Arithmetic description of `align32` below the 32-bit wrap boundary. -/
theorem align32_eq (size : Nat) (h : size + 3 < 2 ^ 32) :
    align32 size = 4 * ((size + 3) / 4) := by
  unfold align32 MEMORY_ALIGNMENT
  rw [Nat.mod_eq_of_lt (by omega)]
  exact land_mask (size + 3) (by omega)

theorem memInv_reachable (m : MemoryManager) (h : MemReachable m) :
    memInv m := by
  induction h with
  | init =>
    refine ⟨by decide, by decide, ?_⟩
    intro b hb hba
    rw [List.eq_of_mem_replicate hb] at hba
    simp [clearedBlock] at hba
  | alloc m size tag now mallocRes lockOk hm ih =>
    obtain ⟨ih1, ih2, ih3⟩ := ih
    unfold MemoryManager.allocate
    by_cases hs : size = 0
    · simpa [hs] using ⟨ih1, ih2, ih3⟩
    · simp only [hs, if_false]
      by_cases hl : lockOk
      · cases hfind : findFreeBlock m.blocks with
        | none => simpa [hl, hfind] using ⟨ih1, ih2, ih3⟩
        | some slot =>
          by_cases hres : mallocRes = 0
          · simpa [hl, hfind, hres] using ⟨ih1, ih2, ih3⟩
          · have hlt : slot < m.blocks.length := scanIdx_some_lt hfind
            have hfree :
                (m.blocks.getD slot clearedBlock).allocated = false := by
              have := scanIdx_getD hfind clearedBlock
              simpa using this
            simp only [hl, hfind, hres]
            simp only [Bool.not_true, Bool.false_eq_true, if_false]
            refine ⟨?_, ?_, ?_⟩
            · have h0 : liveSize (m.blocks.getD slot clearedBlock) = 0 := by
                unfold liveSize
                rw [hfree]
                simp
              have hnew : liveSize
                  { ptr := mallocRes, size := align32 size, allocated := true,
                    timestamp := now,
                    tag := (tag.getD unknownTag).take 15 } = align32 size := by
                simp [liveSize]
              have hsum := sumMap_set liveSize m.blocks slot
                { ptr := mallocRes, size := align32 size, allocated := true,
                  timestamp := now, tag := (tag.getD unknownTag).take 15 }
                clearedBlock hlt
              rw [h0, hnew] at hsum
              dsimp only
              simp only [liveSum] at ih1 ⊢
              omega
            · dsimp only
              split
              · omega
              · omega
            · intro b hb hba
              rcases List.mem_or_eq_of_mem_set hb with hmem | rfl
              · exact ih3 b hmem hba
              · simpa using hres
      · simpa [hl] using ⟨ih1, ih2, ih3⟩
  | dealloc m ptr lockOk hm ih =>
    obtain ⟨ih1, ih2, ih3⟩ := ih
    unfold MemoryManager.free
    by_cases hp : ptr = 0
    · simpa [hp] using ⟨ih1, ih2, ih3⟩
    · simp only [hp, if_false]
      by_cases hl : lockOk
      · cases hfind : findBlockByPtr ptr m.blocks with
        | none => simpa [hl, hfind] using ⟨ih1, ih2, ih3⟩
        | some slot =>
          have hlt : slot < m.blocks.length := scanIdx_some_lt hfind
          have hlive := scanIdx_getD hfind clearedBlock
          simp only [Bool.and_eq_true, beq_iff_eq] at hlive
          have hgd : liveSize (m.blocks.getD slot clearedBlock) =
              (m.blocks.getD slot clearedBlock).size := by
            unfold liveSize
            rw [hlive.1]
            simp
          have hcl : liveSize clearedBlock = 0 := by simp [liveSize, clearedBlock]
          have hsum := sumMap_set liveSize m.blocks slot clearedBlock
            clearedBlock hlt
          have hle := getD_le_sumMap liveSize m.blocks slot clearedBlock hlt
          rw [hgd, hcl] at hsum
          rw [hgd] at hle
          simp only [hl, hfind]
          simp only [Bool.not_true, Bool.false_eq_true, if_false]
          refine ⟨?_, ?_, ?_⟩
          · dsimp only
            simp only [liveSum] at ih1 ⊢
            omega
          · dsimp only
            omega
          · intro b hb hba
            rcases List.mem_or_eq_of_mem_set hb with hmem | rfl
            · exact ih3 b hmem hba
            · simp [clearedBlock] at hba
      · simpa [hl] using ⟨ih1, ih2, ih3⟩

theorem sumMap_eq_zero (f : α → Nat) (l : List α) (h : ∀ a ∈ l, f a = 0) :
    sumMap f l = 0 := by
  induction l with
  | nil => rfl
  | cons a as ih =>
    rw [sumMap_cons, h a (by simp), ih]
    · intro x hx
      exact h x (by simp [hx])

theorem createTask_inv (s : Scheduler) (n : List Char)
    (taskFunction stackSize priority : Nat) (lockOk : Bool)
    (spawnRes : Option Nat)
    (h : (s.createTask (some n) taskFunction stackSize priority lockOk
      spawnRes).ret = true) :
    ∃ slot handle, taskFunction ≠ 0 ∧ lockOk = true ∧
      findTaskByName n s.tasks = none ∧
      findFreeTaskSlot s.tasks = some slot ∧
      spawnRes = some handle ∧
      (s.createTask (some n) taskFunction stackSize priority lockOk
        spawnRes).st =
        { tasks := s.tasks.set slot
            { (s.tasks.getD slot initTask) with
              name := n.take 31, handle := handle,
              stackSize := stackSize, priority := priority,
              state := .eReady, active := true },
          taskCount := s.taskCount + 1 } := by
  unfold Scheduler.createTask at h ⊢
  by_cases hf : taskFunction = 0
  · simp [hf] at h
  · by_cases hl : lockOk
    · by_cases hdup : (findTaskByName n s.tasks).isSome
      · simp [hf, hl, hdup] at h
      · cases hslot : findFreeTaskSlot s.tasks with
        | none => simp [hf, hl, hdup, hslot] at h
        | some slot =>
          cases hsp : spawnRes with
          | none => simp [hf, hl, hdup, hslot, hsp] at h
          | some handle =>
            refine ⟨slot, handle, hf, hl, ?_, rfl, rfl, ?_⟩
            · exact Option.not_isSome_iff_eq_none.mp hdup
            · simp [hf, hl, hdup, hslot, hsp]
    · simp [hf, hl] at h

theorem createTask_fail_st (s : Scheduler) (name : Option (List Char))
    (taskFunction stackSize priority : Nat) (lockOk : Bool)
    (spawnRes : Option Nat)
    (h : (s.createTask name taskFunction stackSize priority lockOk
      spawnRes).ret = false) :
    (s.createTask name taskFunction stackSize priority lockOk spawnRes).st =
      s := by
  unfold Scheduler.createTask at h ⊢
  cases name with
  | none => rfl
  | some n =>
    by_cases hf : taskFunction = 0
    · simp [hf]
    · by_cases hl : lockOk
      · by_cases hdup : (findTaskByName n s.tasks).isSome
        · simp [hf, hl, hdup]
        · cases hslot : findFreeTaskSlot s.tasks with
          | none => simp [hf, hl, hdup, hslot]
          | some slot =>
            cases hsp : spawnRes with
            | none => simp [hf, hl, hdup, hslot, hsp]
            | some handle => simp [hf, hl, hdup, hslot, hsp] at h
      · simp [hf, hl]

theorem createTask_dup_fail (s : Scheduler) (n : List Char)
    (taskFunction stackSize priority : Nat) (lockOk : Bool)
    (spawnRes : Option Nat) (h : (findTaskByName n s.tasks).isSome = true) :
    s.createTask (some n) taskFunction stackSize priority lockOk spawnRes =
      ⟨s, false, false⟩ := by
  unfold Scheduler.createTask
  by_cases hf : taskFunction = 0
  · simp [hf]
  · by_cases hl : lockOk
    · simp [hf, hl, h]
    · simp [hf, hl]

theorem deleteTask_missing (s : Scheduler) (n : List Char) (lockOk : Bool)
    (h : findTaskByName n s.tasks = none) :
    s.deleteTask (some n) lockOk = (s, false) := by
  unfold Scheduler.deleteTask
  by_cases hl : lockOk
  · simp [hl, h]
  · simp [hl]

theorem deleteTask_st_cases (s : Scheduler) (name : Option (List Char))
    (lockOk : Bool) :
    (s.deleteTask name lockOk).1 = s ∨
    ∃ n slot, name = some n ∧ findTaskByName n s.tasks = some slot ∧
      slot < s.tasks.length ∧
      (s.deleteTask name lockOk).1 =
        { tasks := s.tasks.set slot
            { (s.tasks.getD slot initTask) with
              active := false, handle := 0, name := [] },
          taskCount := s.taskCount - 1 } := by
  unfold Scheduler.deleteTask
  cases name with
  | none => left; rfl
  | some n =>
    by_cases hl : lockOk
    · cases hfind : findTaskByName n s.tasks with
      | none => left; simp [hl, hfind]
      | some slot =>
        right
        exact ⟨n, slot, rfl, hfind, scanIdx_some_lt hfind, by simp [hl, hfind]⟩
    · left; simp [hl]

theorem suspendTask_st_cases (s : Scheduler) (name : Option (List Char))
    (lockOk : Bool) :
    (s.suspendTask name lockOk).1 = s ∨
    ∃ n slot, name = some n ∧ findTaskByName n s.tasks = some slot ∧
      slot < s.tasks.length ∧
      (s.suspendTask name lockOk).1 =
        { tasks := s.tasks.set slot
            { (s.tasks.getD slot initTask) with state := .eSuspended },
          taskCount := s.taskCount } := by
  cases name with
  | none => left; rfl
  | some n =>
    by_cases hl : lockOk
    · cases hfind : findTaskByName n s.tasks with
      | none => left; simp [Scheduler.suspendTask, hl, hfind]
      | some slot =>
        by_cases hh : (s.tasks.getD slot initTask).handle = 0
        · left
          rw [List.getD_eq_getElem?_getD] at hh
          simp [Scheduler.suspendTask, hl, hfind, hh]
        · right
          refine ⟨n, slot, rfl, hfind, scanIdx_some_lt hfind, ?_⟩
          rw [List.getD_eq_getElem?_getD] at hh
          simp [Scheduler.suspendTask, hl, hfind, hh]
    · left; simp [Scheduler.suspendTask, hl]

theorem resumeTask_st_cases (s : Scheduler) (name : Option (List Char))
    (lockOk : Bool) :
    (s.resumeTask name lockOk).1 = s ∨
    ∃ n slot, name = some n ∧ findTaskByName n s.tasks = some slot ∧
      slot < s.tasks.length ∧
      (s.resumeTask name lockOk).1 =
        { tasks := s.tasks.set slot
            { (s.tasks.getD slot initTask) with state := .eReady },
          taskCount := s.taskCount } := by
  cases name with
  | none => left; rfl
  | some n =>
    by_cases hl : lockOk
    · cases hfind : findTaskByName n s.tasks with
      | none => left; simp [Scheduler.resumeTask, hl, hfind]
      | some slot =>
        by_cases hh : (s.tasks.getD slot initTask).handle = 0
        · left
          rw [List.getD_eq_getElem?_getD] at hh
          simp [Scheduler.resumeTask, hl, hfind, hh]
        · right
          refine ⟨n, slot, rfl, hfind, scanIdx_some_lt hfind, ?_⟩
          rw [List.getD_eq_getElem?_getD] at hh
          simp [Scheduler.resumeTask, hl, hfind, hh]
    · left; simp [Scheduler.resumeTask, hl]

theorem activeCount_eq_zero_of_find_none (n : List Char) (l : List TaskInfo)
    (h : findTaskByName n l = none) : activeCount n l = 0 := by
  rw [findTaskByName, scanIdx_none_iff] at h
  apply sumMap_eq_zero
  intro t ht
  have := h t ht
  simp only [Bool.and_eq_false_iff, Bool.not_eq_true, beq_eq_false_iff_ne,
    ne_eq] at this
  rcases this with hact | hname
  · simp [hact]
  · simp [hname]

theorem activeCount_le_one (s : Scheduler) (h : SchedReachableShort s) :
    ∀ n, activeCount n s.tasks ≤ 1 := by
  induction h with
  | init =>
    intro n
    have h0 : activeCount n schedInit.tasks = 0 := by
      apply sumMap_eq_zero
      intro t ht
      have ht2 : t ∈ List.replicate MAX_TASKS initTask := by
        simpa [schedInit] using ht
      rw [List.eq_of_mem_replicate ht2]
      simp [initTask]
    omega
  | create s n fn stk p lk sp hs hlen ih =>
    intro m
    by_cases hret : (s.createTask (some n) fn stk p lk sp).ret = true
    · obtain ⟨slot, handle, _, _, hfind, hslot, _, hst⟩ :=
        createTask_inv s n fn stk p lk sp hret
      rw [hst]
      have hlt : slot < s.tasks.length := scanIdx_some_lt hslot
      have htake : n.take 31 = n := List.take_of_length_le hlen
      set rec : TaskInfo :=
        { (s.tasks.getD slot initTask) with
          name := n.take 31, handle := handle, stackSize := stk,
          priority := p, state := .eReady, active := true } with hrec
      have hsum := sumMap_set
        (fun t => if t.active = true ∧ t.name = m then 1 else 0)
        s.tasks slot rec initTask hlt
      dsimp only at hsum
      by_cases hm : m = n
      · subst hm
        have h0 : activeCount m s.tasks = 0 :=
          activeCount_eq_zero_of_find_none m s.tasks hfind
        have hrecval :
            (if rec.active = true ∧ rec.name = m then 1 else 0) = 1 := by
          simp [hrec, htake]
        rw [hrecval] at hsum
        simp only [activeCount] at h0 ⊢
        omega
      · have hrecval :
            (if rec.active = true ∧ rec.name = m then 1 else 0) = 0 := by
          simp [hrec, htake, Ne.symm hm]
        rw [hrecval] at hsum
        have hm2 := ih m
        simp only [activeCount] at hm2 ⊢
        omega
    · have hret2 : (s.createTask (some n) fn stk p lk sp).ret = false := by
        cases hcase : (s.createTask (some n) fn stk p lk sp).ret
        · rfl
        · exact absurd hcase hret
      rw [createTask_fail_st s (some n) fn stk p lk sp hret2]
      exact ih m
  | del s name lk hs ih =>
    intro m
    rcases deleteTask_st_cases s name lk with hst | ⟨n, slot, _, _, hlt, hst⟩
    · rw [hst]; exact ih m
    · rw [hst]
      set rec : TaskInfo :=
        { (s.tasks.getD slot initTask) with
          active := false, handle := 0, name := [] } with hrec
      have hsum := sumMap_set
        (fun t => if t.active = true ∧ t.name = m then 1 else 0)
        s.tasks slot rec initTask hlt
      dsimp only at hsum
      have hrecval :
          (if rec.active = true ∧ rec.name = m then 1 else 0) = 0 := by
        simp [hrec]
      rw [hrecval] at hsum
      have hm2 := ih m
      simp only [activeCount] at hm2 ⊢
      omega
  | susp s name lk hs ih =>
    intro m
    rcases suspendTask_st_cases s name lk with hst | ⟨n, slot, _, _, hlt, hst⟩
    · rw [hst]; exact ih m
    · rw [hst]
      set rec : TaskInfo :=
        { (s.tasks.getD slot initTask) with state := .eSuspended } with hrec
      have hsum := sumMap_set
        (fun t => if t.active = true ∧ t.name = m then 1 else 0)
        s.tasks slot rec initTask hlt
      dsimp only at hsum
      have hrecval :
          (if rec.active = true ∧ rec.name = m then 1 else 0) =
          (if (s.tasks.getD slot initTask).active = true ∧
              (s.tasks.getD slot initTask).name = m then 1 else 0) := by
        simp [hrec]
      rw [hrecval] at hsum
      have hm2 := ih m
      simp only [activeCount] at hm2 ⊢
      omega
  | res s name lk hs ih =>
    intro m
    rcases resumeTask_st_cases s name lk with hst | ⟨n, slot, _, _, hlt, hst⟩
    · rw [hst]; exact ih m
    · rw [hst]
      set rec : TaskInfo :=
        { (s.tasks.getD slot initTask) with state := .eReady } with hrec
      have hsum := sumMap_set
        (fun t => if t.active = true ∧ t.name = m then 1 else 0)
        s.tasks slot rec initTask hlt
      dsimp only at hsum
      have hrecval :
          (if rec.active = true ∧ rec.name = m then 1 else 0) =
          (if (s.tasks.getD slot initTask).active = true ∧
              (s.tasks.getD slot initTask).name = m then 1 else 0) := by
        simp [hrec]
      rw [hrecval] at hsum
      have hm2 := ih m
      simp only [activeCount] at hm2 ⊢
      omega

theorem getD_mem (l : List α) (i : Nat) (d : α) (h : i < l.length) :
    l.getD i d ∈ l := by
  induction l generalizing i with
  | nil => simp at h
  | cons a as ih =>
    cases i with
    | zero => simp
    | succ j =>
      simp only [List.getD_cons_succ]
      exact List.mem_cons_of_mem a (ih j (by simpa using h))

/-- C1: for every sequence of `allocate` and `free` calls on an initialized
`MemoryManager`, the counter `totalAllocated` equals the sum of the
(aligned) `size` fields over currently-live allocation records, and
`totalAllocated` never exceeds `peakAllocated`. -/
theorem c1_counters_invariant (m : MemoryManager) (h : MemReachable m) :
    m.totalAllocated = liveSum m.blocks ∧
    m.totalAllocated ≤ m.peakAllocated :=
  ⟨(memInv_reachable m h).1, (memInv_reachable m h).2.1⟩

/-- Witness for C1 at the concrete reachable state obtained by one
successful 100-byte allocation. -/
theorem c1_counters_invariant_witness :
    (mmInit.allocate 100 none 0 1000 true).st.totalAllocated =
      liveSum (mmInit.allocate 100 none 0 1000 true).st.blocks ∧
    (mmInit.allocate 100 none 0 1000 true).st.totalAllocated ≤
      (mmInit.allocate 100 none 0 1000 true).st.peakAllocated :=
  c1_counters_invariant _
    (MemReachable.alloc mmInit 100 none 0 1000 true MemReachable.init)

/-- C4: when every one of the `MAX_MEMORY_BLOCKS` record slots is live,
`allocate` fails without calling the external allocator and leaves every
allocation record and every counter unchanged, for any arguments and any
collaborator outcomes. -/
theorem c4_nocapacity (m : MemoryManager)
    (_hlen : m.blocks.length = MAX_MEMORY_BLOCKS)
    (hfull : ∀ b ∈ m.blocks, b.allocated = true) :
    ∀ size tag now mallocRes lockOk,
      m.allocate size tag now mallocRes lockOk = ⟨m, 0, false⟩ := by
  intro size tag now res lk
  have hfind : findFreeBlock m.blocks = none := by
    rw [findFreeBlock, scanIdx_none_iff]
    intro b hb
    simp [hfull b hb]
  unfold MemoryManager.allocate
  by_cases hs : size = 0
  · simp [hs]
  · by_cases hl : lk
    · simp [hs, hl, hfind]
    · simp [hs, hl]

/-- Witness for C4: a concrete fully-occupied table. -/
theorem c4_nocapacity_witness :
    mmFull.allocate 16 none 0 1000 true = ⟨mmFull, 0, false⟩ :=
  c4_nocapacity mmFull (by decide) (by decide) 16 none 0 1000 true

/-- C5: `free` on a pointer no live record tracks leaves every record and
counter unchanged and does not call the external allocator; `free` on a
tracked pointer releases it externally, decrements `totalAllocated` by
exactly that record's size (which never underflows on a reachable state),
increments `freeCount`, and zeroes exactly that record's slot. -/
theorem c5_free_contract (m : MemoryManager) (p q slot : Nat)
    (lockOk : Bool) (h : MemReachable m)
    (hnone : findBlockByPtr p m.blocks = none)
    (hsome : findBlockByPtr q m.blocks = some slot) :
    m.free p lockOk = ⟨m, false⟩ ∧
    (m.blocks.getD slot clearedBlock).size ≤ m.totalAllocated ∧
    m.free q true =
      ⟨{ blocks := m.blocks.set slot clearedBlock,
         totalAllocated :=
           m.totalAllocated - (m.blocks.getD slot clearedBlock).size,
         peakAllocated := m.peakAllocated,
         allocationCount := m.allocationCount,
         freeCount := m.freeCount + 1 }, true⟩ := by
  obtain ⟨h1, h2, h3⟩ := memInv_reachable m h
  have hlt := scanIdx_some_lt hsome
  have hget := scanIdx_getD hsome clearedBlock
  simp only [Bool.and_eq_true, beq_iff_eq] at hget
  have hq : q ≠ 0 := by
    intro hq0
    apply h3 (m.blocks.getD slot clearedBlock)
      (getD_mem m.blocks slot clearedBlock hlt) hget.1
    rw [hget.2, hq0]
  refine ⟨?_, ?_, ?_⟩
  · unfold MemoryManager.free
    by_cases hp : p = 0
    · simp [hp]
    · by_cases hl : lockOk
      · simp [hp, hl, hnone]
      · simp [hp, hl]
  · have hb := getD_le_sumMap liveSize m.blocks slot clearedBlock hlt
    have heq : liveSize (m.blocks.getD slot clearedBlock) =
        (m.blocks.getD slot clearedBlock).size := by
      unfold liveSize
      rw [hget.1]
      simp
    rw [heq] at hb
    rw [h1]
    exact hb
  · unfold MemoryManager.free
    simp [hq, hsome]

/-- Witness for C5: the state with one live 100-byte block at pointer 1000;
pointer 7 is untracked, pointer 1000 is tracked in slot 0. -/
theorem c5_free_contract_witness :
    (mmInit.allocate 100 none 0 1000 true).st.free 7 true =
      ⟨(mmInit.allocate 100 none 0 1000 true).st, false⟩ ∧
    ((mmInit.allocate 100 none 0 1000 true).st.blocks.getD 0
        clearedBlock).size ≤
      (mmInit.allocate 100 none 0 1000 true).st.totalAllocated ∧
    (mmInit.allocate 100 none 0 1000 true).st.free 1000 true =
      ⟨{ blocks := (mmInit.allocate 100 none 0 1000
             true).st.blocks.set 0 clearedBlock,
         totalAllocated :=
           (mmInit.allocate 100 none 0 1000 true).st.totalAllocated -
             ((mmInit.allocate 100 none 0 1000 true).st.blocks.getD 0
               clearedBlock).size,
         peakAllocated :=
           (mmInit.allocate 100 none 0 1000 true).st.peakAllocated,
         allocationCount :=
           (mmInit.allocate 100 none 0 1000 true).st.allocationCount,
         freeCount :=
           (mmInit.allocate 100 none 0 1000 true).st.freeCount + 1 },
        true⟩ :=
  c5_free_contract (mmInit.allocate 100 none 0 1000 true).st 7 1000 0 true
    (MemReachable.alloc mmInit 100 none 0 1000 true MemReachable.init)
    (by decide) (by decide)

/-- C8: `reallocate(p, 0)` has the same observable effect on the record
table and counters as `free(p)` and returns null; `reallocate(null, n)` for
`n > 0` is equivalent in observable effect and result to `allocate(n)` with
the default tag. -/
theorem c8_realloc_equiv (m : MemoryManager) (p n now mallocRes : Nat)
    (lockOk1 allocLockOk freeLockOk : Bool) (hn : n ≠ 0) :
    (m.reallocate p 0 now mallocRes lockOk1 allocLockOk freeLockOk).st =
        (m.free p freeLockOk).st ∧
    (m.reallocate p 0 now mallocRes lockOk1 allocLockOk freeLockOk).ret =
        0 ∧
    (m.reallocate p 0 now mallocRes lockOk1 allocLockOk
        freeLockOk).deallocCalled = (m.free p freeLockOk).deallocCalled ∧
    (m.reallocate 0 n now mallocRes lockOk1 allocLockOk freeLockOk).st =
        (m.allocate n (some unknownTag) now mallocRes allocLockOk).st ∧
    (m.reallocate 0 n now mallocRes lockOk1 allocLockOk freeLockOk).ret =
        (m.allocate n (some unknownTag) now mallocRes allocLockOk).ret ∧
    (m.reallocate 0 n now mallocRes lockOk1 allocLockOk
        freeLockOk).mallocCalled =
      (m.allocate n (some unknownTag) now mallocRes
        allocLockOk).mallocCalled := by
  refine ⟨?_, ?_, ?_, ?_, ?_, ?_⟩ <;>
    simp [MemoryManager.reallocate, hn]

/-- Witness for C8 at a concrete state and concrete arguments. -/
theorem c8_realloc_equiv_witness :
    (mmInit.reallocate 5 0 0 77 true true true).st =
        (mmInit.free 5 true).st ∧
    (mmInit.reallocate 5 0 0 77 true true true).ret = 0 ∧
    (mmInit.reallocate 5 0 0 77 true true true).deallocCalled =
        (mmInit.free 5 true).deallocCalled ∧
    (mmInit.reallocate 0 24 0 77 true true true).st =
        (mmInit.allocate 24 (some unknownTag) 0 77 true).st ∧
    (mmInit.reallocate 0 24 0 77 true true true).ret =
        (mmInit.allocate 24 (some unknownTag) 0 77 true).ret ∧
    (mmInit.reallocate 0 24 0 77 true true true).mallocCalled =
        (mmInit.allocate 24 (some unknownTag) 0 77 true).mallocCalled :=
  c8_realloc_equiv mmInit 5 24 0 77 true true true (by decide)

/-- C9 counterexample: the claim "for every requested size greater than 0,
allocate rounds the size up to the next multiple of MEMORY_ALIGNMENT (4)" is
false at `size = 2 ^ 32 - 1`.  The mathematical round-up would be
`4 * ((size + 3) / 4) = 2 ^ 32`, but the 32-bit computation
`(size + 3) & ~3` wraps to `0`; a successful allocate at that size records
and accounts a 0-byte block instead of a rounded-up one. -/
theorem c9_counterexample :
    0 < 2 ^ 32 - 1 ∧
    align32 (2 ^ 32 - 1) = 0 ∧
    4 * ((2 ^ 32 - 1 + 3) / 4) = 2 ^ 32 ∧
    (mmInit.allocate (2 ^ 32 - 1) none 0 1000 true).ret = 1000 ∧
    (mmInit.allocate (2 ^ 32 - 1) none 0 1000 true).st.totalAllocated = 0 ∧
    ((mmInit.allocate (2 ^ 32 - 1) none 0 1000 true).st.blocks.getD 0
      clearedBlock).size = 0 := by
  refine ⟨by decide, by decide, by decide, ?_, ?_, ?_⟩ <;> decide

/-- C9 amended: for every requested `size` with `0 < size` and
`size + 3 < 2 ^ 32` (no 32-bit wrap in the alignment computation),
`allocate` rounds the size up to the next multiple of `MEMORY_ALIGNMENT`
(4) before both allocation and accounting: the computed `align32 size` is
the least multiple of 4 that is at least `size`, a successful allocation
records exactly that size in the slot and adds exactly that size to
`totalAllocated`; the concrete example (100 then 50 allocated, then the
first pointer freed) yields totals 100, 152 and 52. -/
theorem c9_alignment_amended (size : Nat) (m : MemoryManager)
    (tag : Option (List Char)) (now mallocRes slot : Nat)
    (h0 : 0 < size) (h32 : size + 3 < 2 ^ 32)
    (hfind : findFreeBlock m.blocks = some slot) (hres : mallocRes ≠ 0) :
    (align32 size = 4 * ((size + 3) / 4) ∧ size ≤ align32 size ∧
      align32 size < size + 4 ∧ align32 size % 4 = 0) ∧
    ((m.allocate size tag now mallocRes true).st.totalAllocated =
        m.totalAllocated + align32 size ∧
      (m.allocate size tag now mallocRes true).st.blocks.getD slot
          clearedBlock =
        { ptr := mallocRes, size := align32 size, allocated := true,
          timestamp := now, tag := (tag.getD unknownTag).take 15 }) ∧
    ((mmInit.allocate 100 (some "buf".toList) 0 1000
        true).st.totalAllocated = 100 ∧
      ((mmInit.allocate 100 (some "buf".toList) 0 1000 true).st.allocate 50
          (some "x".toList) 0 2000 true).st.totalAllocated = 152 ∧
      (((mmInit.allocate 100 (some "buf".toList) 0 1000 true).st.allocate 50
          (some "x".toList) 0 2000 true).st.free 1000
          true).st.totalAllocated = 52) := by
  have heq := align32_eq size (by omega)
  have hdm := Nat.div_add_mod (size + 3) 4
  have hml : (size + 3) % 4 < 4 := Nat.mod_lt (size + 3) (by omega)
  have hlt : slot < m.blocks.length := scanIdx_some_lt hfind
  refine ⟨⟨heq, by omega, by omega, by omega⟩, ?_, by decide, by decide,
    by decide⟩
  unfold MemoryManager.allocate
  have hs : ¬size = 0 := by omega
  simp only [hs, if_false, hfind, hres, Bool.not_true, Bool.false_eq_true,
    if_true]
  constructor
  · trivial
  · show (m.blocks.set slot
        { ptr := mallocRes, size := align32 size, allocated := true,
          timestamp := now, tag := (tag.getD unknownTag).take 15 }).getD slot
        clearedBlock = _
    exact getD_set_self m.blocks slot _ clearedBlock hlt

/-- Witness for C9 amended, at size 50 on the initial state. -/
theorem c9_alignment_amended_witness :
    (align32 50 = 4 * ((50 + 3) / 4) ∧ 50 ≤ align32 50 ∧
      align32 50 < 50 + 4 ∧ align32 50 % 4 = 0) ∧
    ((mmInit.allocate 50 none 0 7 true).st.totalAllocated =
        mmInit.totalAllocated + align32 50 ∧
      (mmInit.allocate 50 none 0 7 true).st.blocks.getD 0 clearedBlock =
        { ptr := 7, size := align32 50, allocated := true,
          timestamp := 0, tag := ((none : Option (List Char)).getD
            unknownTag).take 15 }) ∧
    ((mmInit.allocate 100 (some "buf".toList) 0 1000
        true).st.totalAllocated = 100 ∧
      ((mmInit.allocate 100 (some "buf".toList) 0 1000 true).st.allocate 50
          (some "x".toList) 0 2000 true).st.totalAllocated = 152 ∧
      (((mmInit.allocate 100 (some "buf".toList) 0 1000 true).st.allocate 50
          (some "x".toList) 0 2000 true).st.free 1000
          true).st.totalAllocated = 52) :=
  c9_alignment_amended 50 mmInit none 0 7 0 (by decide) (by decide)
    (by decide) (by decide)

theorem createTask_nocapacity (s : Scheduler) (n : List Char)
    (fn stk p : Nat) (lk : Bool) (sp : Option Nat)
    (hfull : findFreeTaskSlot s.tasks = none) :
    s.createTask (some n) fn stk p lk sp = ⟨s, false, false⟩ := by
  unfold Scheduler.createTask
  by_cases hf : fn = 0
  · simp [hf]
  · by_cases hl : lk
    · by_cases hdup : (findTaskByName n s.tasks).isSome
      · simp [hf, hl, hdup]
      · simp [hf, hl, hdup, hfull]
    · simp [hf, hl]

/-- C2 counterexample: after creating a task whose name is 31 letters and
then one whose name is 32 letters (both calls succeed), two active records
carry the same stored name, because the second name was truncated to 31
characters on storage while the duplicate check compared the full 32
characters. -/
theorem c2_counterexample :
    (schedInit.createTask (some (List.replicate 31 'a')) 1 2048 5 true
      (some 7)).ret = true ∧
    ((schedInit.createTask (some (List.replicate 31 'a')) 1 2048 5 true
        (some 7)).st.createTask (some (List.replicate 32 'a')) 1 2048 5 true
      (some 8)).ret = true ∧
    activeCount (List.replicate 31 'a')
      ((schedInit.createTask (some (List.replicate 31 'a')) 1 2048 5 true
          (some 7)).st.createTask (some (List.replicate 32 'a')) 1 2048 5
        true (some 8)).st.tasks = 2 := by
  refine ⟨?_, ?_, ?_⟩ <;> decide

/-- C2 amended: provided every `createTask` call in the history used a name
of at most 31 characters, at most one active `TaskRecord` exists per name
at any time; unconditionally, `createTask` with a name that is already
active returns failure and leaves the task table unchanged, and
`deleteTask` with a name matching no active record returns failure and
leaves the table unchanged. -/
theorem c2_unique_names_amended (s1 : Scheduler)
    (h1 : SchedReachableShort s1) (n1 : List Char) (s2 : Scheduler)
    (n2 : List Char) (fn2 stk2 p2 : Nat) (lk2 : Bool) (sp2 : Option Nat)
    (hdup : (findTaskByName n2 s2.tasks).isSome = true) (s3 : Scheduler)
    (n3 : List Char) (lk3 : Bool)
    (hmiss : findTaskByName n3 s3.tasks = none) :
    activeCount n1 s1.tasks ≤ 1 ∧
    s2.createTask (some n2) fn2 stk2 p2 lk2 sp2 = ⟨s2, false, false⟩ ∧
    s3.deleteTask (some n3) lk3 = (s3, false) :=
  ⟨activeCount_le_one s1 h1 n1,
    createTask_dup_fail s2 n2 fn2 stk2 p2 lk2 sp2 hdup,
    deleteTask_missing s3 n3 lk3 hmiss⟩

/-- Witness for C2 amended at concrete states. -/
theorem c2_unique_names_amended_witness :
    activeCount "a".toList
      (schedInit.createTask (some "a".toList) 1 2048 5 true
        (some 7)).st.tasks ≤ 1 ∧
    (schedInit.createTask (some "a".toList) 1 2048 5 true
        (some 7)).st.createTask (some "a".toList) 2 1024 3 true (some 9) =
      ⟨(schedInit.createTask (some "a".toList) 1 2048 5 true (some 7)).st,
        false, false⟩ ∧
    schedInit.deleteTask (some "z".toList) true = (schedInit, false) :=
  c2_unique_names_amended
    (schedInit.createTask (some "a".toList) 1 2048 5 true (some 7)).st
    (SchedReachableShort.create schedInit "a".toList 1 2048 5 true (some 7)
      SchedReachableShort.init (by decide))
    "a".toList
    (schedInit.createTask (some "a".toList) 1 2048 5 true (some 7)).st
    "a".toList 2 1024 3 true (some 9) (by decide)
    schedInit "z".toList true (by decide)

/-- C3 counterexample: an empty but non-NULL task name is not rejected;
with a valid entry point, a free slot and a successful spawn the call
returns success and the external scheduler was asked to create the task,
whereas the claim requires failure for empty names. -/
theorem c3_counterexample :
    (schedInit.createTask (some []) 1 2048 5 true (some 7)).ret = true ∧
    (schedInit.createTask (some []) 1 2048 5 true (some 7)).spawnCalled =
      true := by
  refine ⟨?_, ?_⟩ <;> decide

/-- C3 amended: `createTask` returns failure and the external scheduler is
not asked to create anything when the name pointer is NULL, when the entry
point is NULL, when a task with the same name is already active, or when no
free slot exists; an empty but non-NULL name is not rejected. -/
theorem c3_create_guards_amended (s1 : Scheduler) (fn1 stk1 p1 : Nat)
    (lk1 : Bool) (sp1 : Option Nat) (s2 : Scheduler) (n2 : List Char)
    (stk2 p2 : Nat) (lk2 : Bool) (sp2 : Option Nat) (s3 : Scheduler)
    (n3 : List Char) (fn3 stk3 p3 : Nat) (lk3 : Bool) (sp3 : Option Nat)
    (s4 : Scheduler) (n4 : List Char) (fn4 stk4 p4 : Nat) (lk4 : Bool)
    (sp4 : Option Nat)
    (hdup : (findTaskByName n3 s3.tasks).isSome = true)
    (hfull : findFreeTaskSlot s4.tasks = none) :
    s1.createTask none fn1 stk1 p1 lk1 sp1 = ⟨s1, false, false⟩ ∧
    s2.createTask (some n2) 0 stk2 p2 lk2 sp2 = ⟨s2, false, false⟩ ∧
    s3.createTask (some n3) fn3 stk3 p3 lk3 sp3 = ⟨s3, false, false⟩ ∧
    s4.createTask (some n4) fn4 stk4 p4 lk4 sp4 = ⟨s4, false, false⟩ := by
  refine ⟨rfl, ?_,
    createTask_dup_fail s3 n3 fn3 stk3 p3 lk3 sp3 hdup,
    createTask_nocapacity s4 n4 fn4 stk4 p4 lk4 sp4 hfull⟩
  unfold Scheduler.createTask
  simp

/-- Witness for C3 amended at concrete states. -/
theorem c3_create_guards_amended_witness :
    schedInit.createTask none 1 2048 5 true (some 7) =
      ⟨schedInit, false, false⟩ ∧
    schedInit.createTask (some "b".toList) 0 2048 5 true (some 7) =
      ⟨schedInit, false, false⟩ ∧
    (schedInit.createTask (some "a".toList) 1 2048 5 true
        (some 7)).st.createTask (some "a".toList) 1 2048 5 true (some 8) =
      ⟨(schedInit.createTask (some "a".toList) 1 2048 5 true (some 7)).st,
        false, false⟩ ∧
    schedFull.createTask (some "c".toList) 1 2048 5 true (some 7) =
      ⟨schedFull, false, false⟩ :=
  c3_create_guards_amended schedInit 1 2048 5 true (some 7)
    schedInit "b".toList 2048 5 true (some 7)
    (schedInit.createTask (some "a".toList) 1 2048 5 true (some 7)).st
    "a".toList 1 2048 5 true (some 8)
    schedFull "c".toList 1 2048 5 true (some 7)
    (by decide) (by decide)

/-- C10: `createTask` stores at most the first 31 characters of the
requested name, while `deleteTask` (through `findTaskByName`) compares the
caller's full name against the stored, truncated, name for exact equality;
hence for every name longer than 31 characters, a successful `createTask`
followed by `deleteTask` with the same name returns failure and leaves the
state unchanged. -/
theorem c10_truncated_name_lost (s : Scheduler) (n : List Char)
    (fn stk p hndl slot : Nat) (hlen : 31 < n.length)
    (hslot : findFreeTaskSlot s.tasks = some slot)
    (hret : (s.createTask (some n) fn stk p true (some hndl)).ret = true) :
    ((s.createTask (some n) fn stk p true (some hndl)).st.tasks.getD slot
        initTask).name = n.take 31 ∧
    n.take 31 ≠ n ∧
    (s.createTask (some n) fn stk p true (some hndl)).st.deleteTask (some n)
        true =
      ((s.createTask (some n) fn stk p true (some hndl)).st, false) := by
  obtain ⟨slot2, handle2, hfn, hlk, hfind, hslot2, hsp, hst⟩ :=
    createTask_inv s n fn stk p true (some hndl) hret
  rw [hslot] at hslot2
  obtain rfl : slot = slot2 := Option.some.inj hslot2
  obtain rfl : hndl = handle2 := Option.some.inj hsp
  have hlt : slot < s.tasks.length := scanIdx_some_lt hslot
  have htakene : n.take 31 ≠ n := by
    intro hcon
    have : (n.take 31).length = n.length := by rw [hcon]
    rw [List.length_take] at this
    omega
  set rec : TaskInfo :=
    { (s.tasks.getD slot initTask) with
      name := n.take 31, handle := hndl, stackSize := stk,
      priority := p, state := .eReady, active := true } with hrec
  have hgd : (s.tasks.set slot rec).getD slot initTask = rec :=
    getD_set_self s.tasks slot rec initTask hlt
  refine ⟨?_, htakene, ?_⟩
  · rw [hst]
    simp only [hgd]
  · have hbeq : (List.take 31 n == n) = false :=
      beq_eq_false_iff_ne.mpr htakene
    have hprec : (fun t : TaskInfo => t.active && t.name == n) rec =
        false := by
      simp [hrec, hbeq]
    have hfind2 : findTaskByName n (s.tasks.set slot rec) = none :=
      scanIdx_set_none hfind hprec
    rw [hst]
    exact deleteTask_missing _ n true hfind2

/-- Witness for C10 with a 32-character name on the initial state. -/
theorem c10_truncated_name_lost_witness :
    ((schedInit.createTask (some (List.replicate 32 'a')) 1 2048 5 true
        (some 7)).st.tasks.getD 0 initTask).name =
      (List.replicate 32 'a').take 31 ∧
    (List.replicate 32 'a').take 31 ≠ List.replicate 32 'a' ∧
    (schedInit.createTask (some (List.replicate 32 'a')) 1 2048 5 true
        (some 7)).st.deleteTask (some (List.replicate 32 'a')) true =
      ((schedInit.createTask (some (List.replicate 32 'a')) 1 2048 5 true
        (some 7)).st, false) :=
  c10_truncated_name_lost schedInit (List.replicate 32 'a') 1 2048 5 7 0
    (by decide) (by decide) (by decide)

/-- C6 counterexample: with a 32-character name, `createTask` succeeds but
the immediately following `deleteTask` with the same name fails and clears
nothing; and even with a short name, after create-then-delete the slot's
`stackSize` still holds 2048 rather than being zeroed (`deleteTask` clears
only `active`, `handle` and `name`). -/
theorem c6_counterexample :
    ((schedInit.createTask (some (List.replicate 32 'a')) 1 2048 5 true
        (some 7)).ret = true ∧
      (schedInit.createTask (some (List.replicate 32 'a')) 1 2048 5 true
          (some 7)).st.deleteTask (some (List.replicate 32 'a')) true =
        ((schedInit.createTask (some (List.replicate 32 'a')) 1 2048 5 true
          (some 7)).st, false)) ∧
    ((((schedInit.createTask (some ['w']) 1 2048 5 true
          (some 7)).st.deleteTask (some ['w']) true).1.tasks.getD 0
        initTask).stackSize = 2048 ∧
      (((schedInit.createTask (some ['w']) 1 2048 5 true
          (some 7)).st.deleteTask (some ['w']) true).2 = true)) := by
  refine ⟨⟨?_, ?_⟩, ?_, ?_⟩ <;> decide

/-- C6 amended: for a name of at most 31 characters, after `createTask`
succeeds and `deleteTask` is immediately called with that name, the delete
succeeds, the slot's `active`, `handle` and `name` fields are cleared while
`stackSize`, `priority` and `state` keep the values the create stored and
`stackHighWaterMark` is untouched (they are not zeroed), and a subsequent
`createTask` with the same name succeeds. -/
theorem c6_create_delete_amended (s : Scheduler) (n : List Char)
    (fn stk p hndl fn2 stk2 p2 hndl2 slot : Nat) (hlen : n.length ≤ 31)
    (hfn2 : fn2 ≠ 0) (hslot : findFreeTaskSlot s.tasks = some slot)
    (hret : (s.createTask (some n) fn stk p true (some hndl)).ret = true) :
    ((s.createTask (some n) fn stk p true (some hndl)).st.deleteTask
        (some n) true).2 = true ∧
    ((s.createTask (some n) fn stk p true (some hndl)).st.deleteTask
        (some n) true).1.tasks =
      s.tasks.set slot
        { name := [], handle := 0, stackSize := stk, priority := p,
          state := .eReady,
          stackHighWaterMark :=
            (s.tasks.getD slot initTask).stackHighWaterMark,
          active := false } ∧
    (((s.createTask (some n) fn stk p true (some hndl)).st.deleteTask
          (some n) true).1.createTask (some n) fn2 stk2 p2 true
        (some hndl2)).ret = true := by
  obtain ⟨slot2, handle2, hfn, hlk, hfind, hslot2, hsp, hst⟩ :=
    createTask_inv s n fn stk p true (some hndl) hret
  rw [hslot] at hslot2
  obtain rfl : slot = slot2 := Option.some.inj hslot2
  obtain rfl : hndl = handle2 := Option.some.inj hsp
  have hlt : slot < s.tasks.length := scanIdx_some_lt hslot
  have htake : n.take 31 = n := List.take_of_length_le hlen
  set rec : TaskInfo :=
    { (s.tasks.getD slot initTask) with
      name := n.take 31, handle := hndl, stackSize := stk,
      priority := p, state := .eReady, active := true } with hrec
  have hgd : (s.tasks.set slot rec).getD slot initTask = rec :=
    getD_set_self s.tasks slot rec initTask hlt
  have hprec : (fun t : TaskInfo => t.active && t.name == n) rec = true := by
    simp [hrec, htake]
  have hfindst : findTaskByName n (s.tasks.set slot rec) = some slot :=
    scanIdx_set_of_none hfind hprec slot hlt
  set cleared : TaskInfo :=
    { name := [], handle := 0, stackSize := stk, priority := p,
      state := .eReady,
      stackHighWaterMark := (s.tasks.getD slot initTask).stackHighWaterMark,
      active := false } with hcleared
  have hclr : { rec with active := false, handle := 0, name := [] } =
      cleared := by
    simp [hrec, hcleared]
  have hdel : (s.createTask (some n) fn stk p true (some hndl)).st.deleteTask
      (some n) true =
      ({ tasks := s.tasks.set slot cleared, taskCount := s.taskCount }, true)
      := by
    rw [hst]
    unfold Scheduler.deleteTask
    simp only [Bool.not_true, Bool.false_eq_true, if_false, hfindst]
    rw [hgd]
    rw [List.set_set]
    rw [hclr]
    simp
  refine ⟨by rw [hdel], by rw [hdel], ?_⟩
  rw [hdel]
  have hfind2 : findTaskByName n (s.tasks.set slot cleared) = none := by
    apply scanIdx_set_none hfind
    simp [hcleared]
  have hslot2b : findFreeTaskSlot (s.tasks.set slot cleared) = some slot := by
    apply scanIdx_set_self hslot
    simp [hcleared]
  unfold Scheduler.createTask
  simp [hfn2, hfind2, hslot2b]

/-- Witness for C6 amended with the one-letter name `w` on the initial
state. -/
theorem c6_create_delete_amended_witness :
    ((schedInit.createTask (some ['w']) 1 2048 5 true
        (some 7)).st.deleteTask (some ['w']) true).2 = true ∧
    ((schedInit.createTask (some ['w']) 1 2048 5 true
        (some 7)).st.deleteTask (some ['w']) true).1.tasks =
      schedInit.tasks.set 0
        { name := [], handle := 0, stackSize := 2048, priority := 5,
          state := .eReady,
          stackHighWaterMark :=
            (schedInit.tasks.getD 0 initTask).stackHighWaterMark,
          active := false } ∧
    (((schedInit.createTask (some ['w']) 1 2048 5 true
          (some 7)).st.deleteTask (some ['w']) true).1.createTask
        (some ['w']) 2 1024 3 true (some 9)).ret = true :=
  c6_create_delete_amended schedInit ['w'] 1 2048 5 7 2 1024 3 9 0
    (by decide) (by decide) (by decide) (by decide)

/-- C7 counterexample: `allocateMemory` never attempts acquisition of the
facade's lock (the source contains no `takeMutex` call on that path) and
performs the allocation regardless: on the freshly initialized kernel it
returns the allocator's pointer and changes the tracked state while the
list of facade lock attempts is empty, contradicting the claim that every
facade operation attempts the facade lock and fails without effect on
timeout. -/
theorem c7_counterexample :
    (kernelInit.allocateMemory 16 0 42 true).facadeAttempts = [] ∧
    (kernelInit.allocateMemory 16 0 42 true).ret = 42 ∧
    (kernelInit.allocateMemory 16 0 42
      true).st.memoryManager.totalAllocated = 16 := by
  refine ⟨?_, ?_, ?_⟩ <;> decide

/-- C7 amended: the four task operations of the facade (`createTask`,
`deleteTask`, `suspendTask`, `resumeTask`) attempt acquisition of the
facade's lock with the fixed timeout 1000 and, if acquisition times out,
return failure (or, for the `void`-returning suspend/resume, do nothing)
without performing the operation; `allocateMemory` and `freeMemory` never
attempt the facade lock and delegate directly to the memory manager, whose
own internal lock has the same fixed timeout 1000 and on whose timeout they
fail or do nothing without changing any state. -/
theorem c7_locking_amended (k1 : Kernel) (n1 : Option (List Char))
    (fn1 stk1 p1 : Nat) (tl1 : Nat → Bool) (slk1 : Bool)
    (sp1 : Option Nat) (k2 : Kernel) (n2 : Option (List Char))
    (tl2 : Nat → Bool) (slk2 : Bool) (k3 : Kernel)
    (n3 : Option (List Char)) (tl3 : Nat → Bool) (slk3 : Bool)
    (k4 : Kernel) (n4 : Option (List Char)) (tl4 : Nat → Bool)
    (slk4 : Bool) (k5 : Kernel) (sz5 now5 res5 : Nat) (mlk5 : Bool)
    (k6 : Kernel) (sz6 now6 res6 : Nat) (k7 : Kernel) (p7 : Nat)
    (mlk7 : Bool) (k8 : Kernel) (p8 : Nat)
    (hinit1 : k1.initialized = true) (htl1 : tl1 1000 = false)
    (hinit2 : k2.initialized = true) (htl2 : tl2 1000 = false)
    (hinit3 : k3.initialized = true) (htl3 : tl3 1000 = false)
    (hinit4 : k4.initialized = true) (htl4 : tl4 1000 = false) :
    k1.createTask n1 fn1 stk1 p1 tl1 slk1 sp1 = ⟨k1, false, [1000]⟩ ∧
    k2.deleteTask n2 tl2 slk2 = ⟨k2, false, [1000]⟩ ∧
    k3.suspendTask n3 tl3 slk3 = ⟨k3, [1000]⟩ ∧
    k4.resumeTask n4 tl4 slk4 = ⟨k4, [1000]⟩ ∧
    (k5.allocateMemory sz5 now5 res5 mlk5).facadeAttempts = [] ∧
    k6.allocateMemory sz6 now6 res6 false = ⟨k6, 0, []⟩ ∧
    (k7.freeMemory p7 mlk7).facadeAttempts = [] ∧
    k8.freeMemory p8 false = ⟨k8, []⟩ := by
  refine ⟨?_, ?_, ?_, ?_, ?_, ?_, ?_, ?_⟩
  · unfold Kernel.createTask
    simp [hinit1, htl1]
  · unfold Kernel.deleteTask
    simp [hinit2, htl2]
  · unfold Kernel.suspendTask
    simp [hinit3, htl3]
  · unfold Kernel.resumeTask
    simp [hinit4, htl4]
  · unfold Kernel.allocateMemory
    by_cases h : k5.initialized
    · simp [h]
    · simp [h]
  · obtain ⟨sch6, mm6, ini6, tt6⟩ := k6
    unfold Kernel.allocateMemory
    cases ini6 with
    | false => simp
    | true =>
      unfold MemoryManager.allocate
      by_cases hs : sz6 = 0
      · simp [hs]
      · simp [hs]
  · unfold Kernel.freeMemory
    by_cases h : k7.initialized && (p7 != 0)
    · simp [h]
    · simp [h]
  · unfold Kernel.freeMemory
    by_cases h : k8.initialized && (p8 != 0)
    · unfold MemoryManager.free
      by_cases hp : p8 = 0
      · simp [h, hp]
      · simp [h, hp]
    · simp [h]

/-- Witness for C7 amended: the initialized kernel with an always-failing
facade lock, and memory operations with a failing memory-manager lock. -/
theorem c7_locking_amended_witness :
    kernelInit.createTask (some "a".toList) 1 2048 5 (fun _ => false) true
        (some 7) = ⟨kernelInit, false, [1000]⟩ ∧
    kernelInit.deleteTask (some "a".toList) (fun _ => false) true =
      ⟨kernelInit, false, [1000]⟩ ∧
    kernelInit.suspendTask (some "a".toList) (fun _ => false) true =
      ⟨kernelInit, [1000]⟩ ∧
    kernelInit.resumeTask (some "a".toList) (fun _ => false) true =
      ⟨kernelInit, [1000]⟩ ∧
    (kernelInit.allocateMemory 16 0 42 true).facadeAttempts = [] ∧
    kernelInit.allocateMemory 16 0 42 false = ⟨kernelInit, 0, []⟩ ∧
    (kernelInit.freeMemory 5 true).facadeAttempts = [] ∧
    kernelInit.freeMemory 5 false = ⟨kernelInit, []⟩ :=
  c7_locking_amended kernelInit (some "a".toList) 1 2048 5
    (fun _ => false) true (some 7) kernelInit (some "a".toList)
    (fun _ => false) true kernelInit (some "a".toList) (fun _ => false)
    true kernelInit (some "a".toList) (fun _ => false) true kernelInit 16
    0 42 true kernelInit 16 0 42 kernelInit 5 true kernelInit 5
    (by decide) rfl (by decide) rfl (by decide) rfl (by decide) rfl

end Esp32OS
